import Mathlib

/-!
Shallow embedding of the differencing engine of this repository
(`src/common.py`, class `TimeSeriesDifferencing`), together with proofs of
the behavioural properties of its two operations `difference_time_series`
and `de_difference_time_series`.

Modelling conventions:
* Python floats are modelled as exact rationals (`ℚ`); the spec's
  "within floating tolerance" comparisons therefore become exact equality,
  and `np.allclose` becomes decidable list equality.
* One-dimensional numpy arrays are modelled as `List ℚ`.  General numpy
  arrays (needed for the shape checks) are modelled as a shape together
  with the row-major flattening of the data (`NDArray` below).
* Each Python method mutates fields of `self` and may raise; a method on
  the engine is modelled as a function `state → input → state × Except
  DiffError output`, where the returned state is the state of the object
  after the call, also when the call raises (Python objects keep the
  mutations performed before an exception escapes).
* Python exceptions are tagged by which check raised them:
  `InvalidInput` for the input `assert` statements, `MissingState` for the
  `ValueError` raised when `original_vector` is empty, `LengthMismatch`
  for the length `assert` of `de_difference_time_series`, `IndexError`
  for out-of-range element access (`dfv[0]` on an empty difference vector,
  `prepend_vector[p]` past the start), and `BroadcastError` for numpy
  broadcasting failures when combining two vectors of different lengths.
  (Broadcasting of length-one arrays against longer arrays is not
  modelled; no state reachable through the engine's own calls produces
  such a combination.)
-/

inductive DiffError where
  | InvalidInput
  | MissingState
  | LengthMismatch
  | IndexError
  | BroadcastError
  deriving DecidableEq, Repr

instance {ε α : Type} [DecidableEq ε] [DecidableEq α] : DecidableEq (Except ε α) := fun a b =>
  match a, b with
  | .ok x, .ok y =>
      if h : x = y then .isTrue (by rw [h]) else .isFalse (fun hc => by cases hc; exact h rfl)
  | .error e, .error f =>
      if h : e = f then .isTrue (by rw [h]) else .isFalse (fun hc => by cases hc; exact h rfl)
  | .ok _, .error _ => .isFalse (fun hc => by cases hc)
  | .error _, .ok _ => .isFalse (fun hc => by cases hc)

/-- The engine state: the dataclass `TimeSeriesDifferencing` of `src/common.py`.
Configuration fields `k_diff`, `k_seasonal_diff`, `seasonal_periods` are the
non-negative integers of the spec's data model; the three vector fields are
the mutable inversion state. -/
structure TimeSeriesDifferencing where
  k_diff : ℕ
  k_seasonal_diff : ℕ
  seasonal_periods : ℕ
  original_vector : List ℚ
  final_difference_vector : List ℚ
  prepend_vector : List ℚ
  deriving DecidableEq, Repr

/-- One step of numpy forward differencing: `np.diff(s, 1)`,
`out[i] = s[i+1] - s[i]`. -/
def npDiff1 : List ℚ → List ℚ
  | a :: b :: t => (b - a) :: npDiff1 (b :: t)
  | _ => []

/-- Iterated numpy differencing: `np.diff(s, k)` (numpy iterates the
first difference `k` times). -/
def npDiffK : ℕ → List ℚ → List ℚ
  | 0, s => s
  | k + 1, s => npDiff1 (npDiffK k s)

/-- One seasonal differencing pass of `difference_time_series_seasonal`:
`series[seasonal_periods:] - series[:-seasonal_periods]`.
Python's `series[:-P]` is empty when `P = 0` (`s[:0]`), hence the guard;
for `P ≥ 1` both numpy slices have length `len - P` and subtraction is
element-wise. -/
def seasonalDiffOnce (P : ℕ) (s : List ℚ) : List ℚ :=
  List.zipWith (fun a b => a - b) (s.drop P) (if P = 0 then [] else s.take (s.length - P))

/-- Method `difference_time_series_seasonal` of `src/common.py` lines 36-50:
repeats `k_seasonal_diff` times: append the first `seasonal_periods`
elements of the current series to `prepend_vector`, then replace the series
by its seasonal difference.  Returns the pair
(new `prepend_vector`, differenced series). -/
def difference_time_series_seasonal (k P : ℕ) (pv s : List ℚ) : List ℚ × List ℚ :=
  match k with
  | 0 => (pv, s)
  | k + 1 => difference_time_series_seasonal k P (pv ++ s.take P) (seasonalDiffOnce P s)

/-- Body of `difference_time_series` (`src/common.py` lines 65-81), after the
input asserts: store the series in `original_vector`, run the seasonal
passes, then simple differencing of order `k_diff` taking the first element
of each of the difference vectors of orders `0 .. k_diff - 1` as seeds.
Python's `dfv[0]` raises `IndexError` when some of those difference vectors
is empty, i.e. exactly when the seasonally differenced series is shorter
than `k_diff`; the seasonal seeds and `original_vector` have been stored at
that point, `final_difference_vector` has not. -/
def difference_body (st : TimeSeriesDifferencing) (series : List ℚ) :
    TimeSeriesDifferencing × Except DiffError (List ℚ) :=
  let st1 := { st with original_vector := series }
  let sp := difference_time_series_seasonal st.k_seasonal_diff st.seasonal_periods
    st.prepend_vector series
  let st2 := { st1 with prepend_vector := sp.1 }
  if 1 ≤ st.k_diff ∧ sp.2.length < st.k_diff then (st2, .error .IndexError)
  else
    let final := npDiffK st.k_diff sp.2
    let prepends := (List.range st.k_diff).map (fun k => (npDiffK k sp.2).headD 0)
    ({ st2 with prepend_vector := sp.1 ++ prepends, final_difference_vector := final },
      .ok final)

/-- Method `difference_time_series` of `src/common.py` lines 53-81 on a
one-dimensional input (the shape assert of line 59 always holds for a
one-dimensional array; the general-shape wrapper is below).  The asserts of
lines 61-63 run before any mutation. -/
def difference_time_series (st : TimeSeriesDifferencing) (series : List ℚ) :
    TimeSeriesDifferencing × Except DiffError (List ℚ) :=
  if series.length < max st.k_diff st.k_seasonal_diff then (st, .error .InvalidInput)
  else if 0 < st.k_seasonal_diff ∧ st.seasonal_periods < 1 then (st, .error .InvalidInput)
  else difference_body st series

/-- Method `_difference_time_series_2` of `src/common.py` lines 84-112
(leading underscore dropped): simple differencing first, then the seasonal
passes; `final_difference_vector` receives the simple-only difference and
the return value is the seasonal difference of it. -/
def difference_time_series_2 (st : TimeSeriesDifferencing) (series : List ℚ) :
    TimeSeriesDifferencing × Except DiffError (List ℚ) :=
  if series.length < st.k_diff + st.k_seasonal_diff then (st, .error .InvalidInput)
  else if 0 < st.k_seasonal_diff ∧ st.seasonal_periods < 1 then (st, .error .InvalidInput)
  else
    let st1 := { st with original_vector := series }
    let final := npDiffK st.k_diff series
    let st2 := { st1 with final_difference_vector := final }
    let sp := difference_time_series_seasonal st.k_seasonal_diff st.seasonal_periods
      st.prepend_vector final
    ({ st2 with prepend_vector := sp.1 }, .ok sp.2)

/-- Running cumulative sum with accumulator: helper for `np.cumsum`. -/
def npCumsumFrom (acc : ℚ) : List ℚ → List ℚ
  | [] => []
  | x :: xs => (acc + x) :: npCumsumFrom (acc + x) xs

/-- `np.cumsum` on a one-dimensional array. -/
def npCumsum (s : List ℚ) : List ℚ := npCumsumFrom 0 s

/-- The loop of `periodic_cumulative_sum` (`src/common.py` lines 129-132):
at iteration `idx` the accumulator (which has length `P + idx`) is extended
by `acc[idx] + s[idx + P]`.  `fuel` counts the remaining iterations. -/
def pcsLoop (s : List ℚ) (P : ℕ) : ℕ → ℕ → List ℚ → List ℚ
  | 0, _, acc => acc
  | fuel + 1, idx, acc => pcsLoop s P fuel (idx + 1) (acc ++ [acc.getD idx 0 + s.getD (idx + P) 0])

/-- Method `periodic_cumulative_sum` of `src/common.py` lines 115-134: asserts
`len(series) > seasonal_periods`, then accumulates cumulative sums
independently in each residue class modulo the period.  With `P = 0` the
assert can pass but the first loop iteration reads `periodic_cumsum[0]` of
an empty accumulator, an `IndexError`.  For `P ≥ 1` every access of the loop
is in range, so the defaulted reads of `pcsLoop` model it faithfully. -/
def periodic_cumulative_sum (s : List ℚ) (P : ℕ) : Except DiffError (List ℚ) :=
  if s.length ≤ P then .error .InvalidInput
  else if P = 0 then .error .IndexError
  else .ok (pcsLoop s P (s.length - P) 0 (s.take P))

/-- Python slicing `s[start:]` for a possibly negative `start` (used by
`de_difference_time_series` line 210 where `start_idx = len - P` is a Python
int): a negative start counts from the end, clamped at 0. -/
def pySliceFrom (start : ℤ) (s : List ℚ) : List ℚ :=
  if 0 ≤ start then s.drop start.toNat else s.drop (s.length - (-start).toNat)

/-- The simple de-differencing loop of `de_difference_time_series`
(`src/common.py` lines 196-200): iteration `j = 1, 2, ...` reads
`prepend_vector[-j]` (the list is not mutated during the loop), prepends it
to the running vector and takes `np.cumsum`.  `rem` counts the remaining
iterations.  Callers guard `k_diff ≤ pv.length`, which keeps every read in
range, so the defaulted read models the source faithfully. -/
def simpleDeDiffLoop (pv : List ℚ) : ℕ → ℕ → List ℚ → List ℚ
  | 0, _, c => c
  | rem + 1, j, c => simpleDeDiffLoop pv rem (j + 1) (npCumsum (pv.getD (pv.length - j) 0 :: c))

/-- The seasonal de-differencing loop of `de_difference_time_series`
(`src/common.py` lines 205-216): each iteration slices the last
`seasonal_periods` elements off `prepend_vector` (Python slice semantics,
including the negative-start case), prepends them to the running vector,
applies `periodic_cumulative_sum`, and pops the used elements from
`prepend_vector` (Python's `pv[:-P]`, which is empty for `P = 0`).  Returns
the final `prepend_vector` (also on error, since the pops of completed
iterations have already been committed to `self`) and the result. -/
def seasonalDeDiffLoop (P : ℕ) : ℕ → List ℚ → List ℚ → List ℚ × Except DiffError (List ℚ)
  | 0, pv, c => (pv, .ok c)
  | t + 1, pv, c =>
    let prepend := pySliceFrom ((pv.length : ℤ) - (P : ℤ)) pv
    match periodic_cumulative_sum (prepend ++ c) P with
    | .error e => (pv, .error e)
    | .ok c2 => seasonalDeDiffLoop P t (if P = 0 then [] else pv.take (pv.length - P)) c2

/-- Body of `de_difference_time_series` (`src/common.py` lines 175-218), after
the pre-checks that short-circuit: the length assert (`LengthMismatch`),
the `np.allclose` identity test against `final_difference_vector` (exact
equality under exact arithmetic; combining vectors of different lengths is
a numpy broadcasting error), the additive combination, the simple
de-differencing loop with its tail pops, and the seasonal de-differencing
loop with its per-iteration pops. -/
def de_difference_body (st : TimeSeriesDifferencing) (series : List ℚ) :
    TimeSeriesDifferencing × Except DiffError (List ℚ) :=
  let diff_total := st.k_diff + st.k_seasonal_diff * st.seasonal_periods
  if series.length + diff_total ≠ st.original_vector.length then (st, .error .LengthMismatch)
  else if series.length ≠ st.final_difference_vector.length then (st, .error .BroadcastError)
  else
    let combined := if series = st.final_difference_vector then series
      else List.zipWith (fun a b => a + b) series st.final_difference_vector
    if 1 ≤ st.k_diff ∧ st.prepend_vector.length < st.k_diff then (st, .error .IndexError)
    else
      let c1 := simpleDeDiffLoop st.prepend_vector st.k_diff 1 combined
      let pv1 := if st.k_diff = 0 then st.prepend_vector
        else st.prepend_vector.take (st.prepend_vector.length - st.k_diff)
      let res := seasonalDeDiffLoop st.seasonal_periods st.k_seasonal_diff pv1 c1
      ({ st with prepend_vector := res.1 }, res.2)

/-- Method `de_difference_time_series` of `src/common.py` lines 137-218 on a
one-dimensional input.  Pre-check order as in the source: empty
`original_vector` raises `ValueError` (`MissingState`), an empty input
returns `original_vector` unchanged, zero orders return the input
unchanged, and only then the length assert and the reconstruction run. -/
def de_difference_time_series (st : TimeSeriesDifferencing) (series : List ℚ) :
    TimeSeriesDifferencing × Except DiffError (List ℚ) :=
  if st.original_vector = [] then (st, .error .MissingState)
  else if series = [] then (st, .ok st.original_vector)
  else if st.k_diff = 0 ∧ st.k_seasonal_diff = 0 then (st, .ok series)
  else de_difference_body st series

/-- A numpy array of arbitrary shape: the shape tuple and the row-major
flattening of the entries (`reshape(-1)` returns exactly `data`). -/
structure NDArray where
  shape : List ℕ
  data : List ℚ

/-- The shape check of `src/common.py` lines 59, 94, 123, 160 and of the
helper `is_array_one_dimensional` (line 311-315):
`(np.array(series.shape) > 1).sum() <= 1`, i.e. at most one dimension
exceeds 1. -/
def is_array_one_dimensional (shape : List ℕ) : Prop :=
  (shape.filter (fun d => decide (1 < d))).length ≤ 1

instance (shape : List ℕ) : Decidable (is_array_one_dimensional shape) := by
  unfold is_array_one_dimensional; infer_instance

/-- Python `len` of a numpy array: the first dimension of its shape. -/
def pyLen (shape : List ℕ) : ℕ := shape.headD 0

/-- `difference_time_series` on an input of arbitrary shape: the shape assert
runs first, then the length assert on Python's `len(series)` (the FIRST
dimension, since the reshape to one dimension only happens at line 66), then
the body on the flattened data. -/
def difference_time_series_nd (st : TimeSeriesDifferencing) (a : NDArray) :
    TimeSeriesDifferencing × Except DiffError (List ℚ) :=
  if ¬ is_array_one_dimensional a.shape then (st, .error .InvalidInput)
  else if pyLen a.shape < max st.k_diff st.k_seasonal_diff then (st, .error .InvalidInput)
  else if 0 < st.k_seasonal_diff ∧ st.seasonal_periods < 1 then (st, .error .InvalidInput)
  else difference_body st a.data

/-- `de_difference_time_series` on an input of arbitrary shape: the
`MissingState` check precedes the shape assert; `series.size == 0` tests the
number of entries; the input is reshaped to one dimension (line 171) before
any length is taken, so the body acts on the flattened data.  (On the
zero-orders path the source returns the array unreshaped; its entries are
`a.data`, which is what this model returns.) -/
def de_difference_time_series_nd (st : TimeSeriesDifferencing) (a : NDArray) :
    TimeSeriesDifferencing × Except DiffError (List ℚ) :=
  if st.original_vector = [] then (st, .error .MissingState)
  else if ¬ is_array_one_dimensional a.shape then (st, .error .InvalidInput)
  else if a.data = [] then (st, .ok st.original_vector)
  else if st.k_diff = 0 ∧ st.k_seasonal_diff = 0 then (st, .ok a.data)
  else de_difference_body st a.data

/-!  Specification-side descriptions of the seed bookkeeping, used to state
the stack-discipline properties: the seeds appended by the seasonal passes
and the seeds appended by the simple pass. -/

/-- The iterated seasonal difference: the series after `k` seasonal passes. -/
def seasonalDiffIter : ℕ → ℕ → List ℚ → List ℚ
  | 0, _, s => s
  | k + 1, P, s => seasonalDiffIter k P (seasonalDiffOnce P s)

/-- The seed values appended to `prepend_vector` by `k` seasonal passes:
the first `P` elements of the current series, one block per pass. -/
def seasonalSeeds : ℕ → ℕ → List ℚ → List ℚ
  | 0, _, _ => []
  | k + 1, P, s => s.take P ++ seasonalSeeds k P (seasonalDiffOnce P s)

/-- The seed values appended to `prepend_vector` by the simple pass:
the first element of the difference vector of each order `0 .. k - 1`. -/
def simpleSeeds (k : ℕ) (s : List ℚ) : List ℚ :=
  (List.range k).map (fun j => (npDiffK j s).headD 0)

/-- Folding the simple de-differencing over an explicit seed list (seeds
given innermost first); the loop of the source is proved equal to this. -/
def undiffRev : List ℚ → List ℚ → List ℚ
  | [], c => c
  | d :: ds, c => undiffRev ds (npCumsum (d :: c))

example : npDiffK 1 [1, 3, 6, 10, 15] = [2, 3, 4, 5] := by
  norm_num [npDiffK, npDiff1]

example : difference_time_series ⟨1, 0, 1, [], [], []⟩ [1, 3, 6, 10, 15] =
    (⟨1, 0, 1, [1, 3, 6, 10, 15], [2, 3, 4, 5], [1]⟩, .ok [2, 3, 4, 5]) := by
  norm_num [difference_time_series, difference_body, difference_time_series_seasonal,
    npDiffK, npDiff1, List.range_succ]

example : de_difference_time_series ⟨1, 0, 1, [1, 3, 6, 10, 15], [2, 3, 4, 5], [1]⟩
    [2, 3, 4, 5] = (⟨1, 0, 1, [1, 3, 6, 10, 15], [2, 3, 4, 5], []⟩, .ok [1, 3, 6, 10, 15]) := by
  simp [de_difference_time_series, de_difference_body, simpleDeDiffLoop,
    seasonalDeDiffLoop, npCumsum, npCumsumFrom]
  norm_num

example : difference_time_series ⟨0, 1, 4, [], [], []⟩ [1, 2, 3, 4, 5, 6, 7, 8] =
    (⟨0, 1, 4, [1, 2, 3, 4, 5, 6, 7, 8], [4, 4, 4, 4], [1, 2, 3, 4]⟩, .ok [4, 4, 4, 4]) := by
  norm_num [difference_time_series, difference_body, difference_time_series_seasonal,
    seasonalDiffOnce, npDiffK, npDiff1]

example : de_difference_time_series ⟨0, 1, 4, [1, 2, 3, 4, 5, 6, 7, 8], [4, 4, 4, 4], [1, 2, 3, 4]⟩
    [4, 4, 4, 4] = (⟨0, 1, 4, [1, 2, 3, 4, 5, 6, 7, 8], [4, 4, 4, 4], []⟩,
      .ok [1, 2, 3, 4, 5, 6, 7, 8]) := by
  simp [de_difference_time_series, de_difference_body, simpleDeDiffLoop,
    seasonalDeDiffLoop, pySliceFrom, periodic_cumulative_sum, pcsLoop]
  norm_num

/-!  Length bookkeeping of the forward transform. -/

theorem npDiff1_length : ∀ s : List ℚ, (npDiff1 s).length = s.length - 1
  | [] => rfl
  | [_] => rfl
  | a :: b :: t => by
    simp [npDiff1, npDiff1_length (b :: t)]

theorem npDiffK_length (k : ℕ) (s : List ℚ) : (npDiffK k s).length = s.length - k := by
  induction k with
  | zero => simp [npDiffK]
  | succ k ih =>
    simp [npDiffK, npDiff1_length, ih]
    omega

theorem seasonalDiffOnce_length {P : ℕ} (hP : 1 ≤ P) (s : List ℚ) :
    (seasonalDiffOnce P s).length = s.length - P := by
  unfold seasonalDiffOnce
  rw [if_neg (by omega)]
  simp

theorem seasonalDiffIter_length {P : ℕ} (hP : 1 ≤ P) :
    ∀ (k : ℕ) (s : List ℚ), (seasonalDiffIter k P s).length = s.length - k * P := by
  intro k
  induction k with
  | zero => simp [seasonalDiffIter]
  | succ k ih =>
    intro s
    have hm : (k + 1) * P = k * P + P := Nat.succ_mul k P
    rw [seasonalDiffIter, ih, seasonalDiffOnce_length hP]
    omega

theorem seasonalSeeds_length {P : ℕ} (hP : 1 ≤ P) :
    ∀ (k : ℕ) (s : List ℚ), k * P ≤ s.length → (seasonalSeeds k P s).length = k * P := by
  intro k
  induction k with
  | zero => simp [seasonalSeeds]
  | succ k ih =>
    intro s hlen
    have hm : (k + 1) * P = k * P + P := Nat.succ_mul k P
    rw [seasonalSeeds]
    have h1 : (s.take P).length = P := by
      simp
      omega
    have h2 : (seasonalSeeds k P (seasonalDiffOnce P s)).length = k * P := by
      apply ih
      rw [seasonalDiffOnce_length hP]
      omega
    simp only [List.length_append, h1, h2]
    omega

theorem simpleSeeds_length (k : ℕ) (s : List ℚ) : (simpleSeeds k s).length = k := by
  simp [simpleSeeds]

/-- The seasonal-differencing method appends exactly the seasonal seed
blocks to `prepend_vector` and returns the iterated seasonal difference. -/
theorem difference_time_series_seasonal_eq :
    ∀ (k P : ℕ) (pv s : List ℚ),
      difference_time_series_seasonal k P pv s =
        (pv ++ seasonalSeeds k P s, seasonalDiffIter k P s) := by
  intro k
  induction k with
  | zero => intro P pv s; simp [difference_time_series_seasonal, seasonalSeeds, seasonalDiffIter]
  | succ k ih =>
    intro P pv s
    rw [difference_time_series_seasonal, ih, seasonalSeeds, seasonalDiffIter,
      List.append_assoc]

/-!  Inversion of simple differencing by cumulative summation. -/

theorem getElem?_eq_some_getD {s : List ℚ} {n : ℕ} (h : n < s.length) :
    s[n]? = some (s.getD n 0) := by
  rw [List.getD_eq_getElem?_getD, List.getElem?_eq_getElem h]
  rfl

theorem npCumsumFrom_npDiff1 : ∀ (t : List ℚ) (b : ℚ), npCumsumFrom b (npDiff1 (b :: t)) = t := by
  intro t
  induction t with
  | nil => intro b; rfl
  | cons c t ih =>
    intro b
    have h : b + (c - b) = c := by ring
    show npCumsumFrom b ((c - b) :: npDiff1 (c :: t)) = c :: t
    rw [npCumsumFrom, h, ih c]

theorem npCumsum_headD_npDiff1 (s : List ℚ) (h : s ≠ []) :
    npCumsum (s.headD 0 :: npDiff1 s) = s := by
  cases s with
  | nil => exact absurd rfl h
  | cons b t =>
    show npCumsum (b :: npDiff1 (b :: t)) = b :: t
    rw [npCumsum, npCumsumFrom, zero_add, npCumsumFrom_npDiff1]

/-- Folding the simple de-differencing over the simple seeds (innermost
first) recovers the undifferenced series. -/
theorem undiffRev_simpleSeeds :
    ∀ (k : ℕ) (x : List ℚ), k ≤ x.length →
      undiffRev (simpleSeeds k x).reverse (npDiffK k x) = x := by
  intro k
  induction k with
  | zero => intro x h; simp [simpleSeeds, undiffRev, npDiffK]
  | succ k ih =>
    intro x h
    have hne : npDiffK k x ≠ [] := by
      intro hc
      have hl := npDiffK_length k x
      rw [hc] at hl
      simp at hl
      omega
    have hseeds : simpleSeeds (k + 1) x = simpleSeeds k x ++ [(npDiffK k x).headD 0] := by
      simp [simpleSeeds, List.range_succ]
    rw [hseeds, List.reverse_append]
    show undiffRev ((npDiffK k x).headD 0 :: (simpleSeeds k x).reverse) (npDiff1 (npDiffK k x)) = x
    rw [undiffRev, npCumsum_headD_npDiff1 _ hne]
    exact ih x (by omega)

/-- The simple de-differencing loop of the source reads
`prepend_vector[-1], prepend_vector[-2], ...`; it equals the fold over the
reversed tail segment of `prepend_vector`. -/
theorem simpleDeDiffLoop_eq (pv : List ℚ) :
    ∀ (r j : ℕ) (c : List ℚ), 1 ≤ j → j + r ≤ pv.length + 1 →
      simpleDeDiffLoop pv r j c = undiffRev ((pv.reverse.drop (j - 1)).take r) c := by
  intro r
  induction r with
  | zero => intro j c _ _; simp [simpleDeDiffLoop, undiffRev]
  | succ r ih =>
    intro j c hj hle
    have hlt : j - 1 < pv.reverse.length := by
      simp only [List.length_reverse]
      omega
    have hidx : pv.length - 1 - (j - 1) = pv.length - j := by omega
    have hsome : pv.reverse[j - 1]? = pv[pv.length - j]? := by
      rw [List.getElem?_reverse (by simpa using hlt), hidx]
    have hD : pv.getD (pv.length - j) 0 = pv.reverse.getD (j - 1) 0 := by
      rw [List.getD_eq_getElem?_getD, List.getD_eq_getElem?_getD, hsome]
    have hdrop : pv.reverse.drop (j - 1) =
        pv.reverse.getD (j - 1) 0 :: pv.reverse.drop j := by
      rw [List.drop_eq_getElem_cons hlt]
      congr 1
      · rw [List.getD_eq_getElem?_getD, List.getElem?_eq_getElem hlt]
        rfl
      · congr 1
        omega
    rw [simpleDeDiffLoop, hdrop, List.take_succ_cons, undiffRev, hD,
      ih (j + 1) (npCumsum (pv.reverse.getD (j - 1) 0 :: c)) (by omega) (by omega)]
    simp

/-- Specialisation: when the tail of `prepend_vector` is an explicit seed
block `D`, the loop folds over `D` from its last element backwards. -/
theorem simpleDeDiffLoop_append (q D c : List ℚ) :
    simpleDeDiffLoop (q ++ D) D.length 1 c = undiffRev D.reverse c := by
  rw [simpleDeDiffLoop_eq (q ++ D) D.length 1 c le_rfl (by simp; omega)]
  simp only [Nat.sub_self, List.drop_zero, List.reverse_append]
  rw [List.take_left' (by simp)]

/-!  Inversion of seasonal differencing by the periodic cumulative sum. -/

theorem seasonalDiffOnce_getElem? {P : ℕ} (hP : 1 ≤ P) (s : List ℚ) (i : ℕ)
    (h : i + P < s.length) :
    (seasonalDiffOnce P s)[i]? = some (s.getD (P + i) 0 - s.getD i 0) := by
  unfold seasonalDiffOnce
  rw [if_neg (by omega), List.getElem?_zipWith, List.getElem?_drop, List.getElem?_take,
    if_pos (by omega), getElem?_eq_some_getD (show P + i < s.length by omega),
    getElem?_eq_some_getD (show i < s.length by omega)]

theorem pcsLoop_inv {P : ℕ} (hP : 1 ≤ P) (x : List ℚ) :
    ∀ (fuel idx : ℕ), P + idx + fuel = x.length →
      pcsLoop (x.take P ++ seasonalDiffOnce P x) P fuel idx (x.take (P + idx)) = x := by
  intro fuel
  induction fuel with
  | zero =>
    intro idx h
    rw [pcsLoop, show P + idx = x.length from by omega, List.take_length]
  | succ fuel ih =>
    intro idx h
    rw [pcsLoop]
    have hlenP : (x.take P).length = P := by simp; omega
    have h1 : (x.take (P + idx)).getD idx 0 = x.getD idx 0 := by
      rw [List.getD_eq_getElem?_getD, List.getElem?_take, if_pos (by omega),
        ← List.getD_eq_getElem?_getD]
    have h2 : (x.take P ++ seasonalDiffOnce P x).getD (idx + P) 0
        = x.getD (P + idx) 0 - x.getD idx 0 := by
      rw [List.getD_eq_getElem?_getD, List.getElem?_append_right (by rw [hlenP]; omega), hlenP,
        show idx + P - P = idx from by omega,
        seasonalDiffOnce_getElem? hP x idx (by omega)]
      rfl
    have h3 : x.getD idx 0 + (x.getD (P + idx) 0 - x.getD idx 0) = x.getD (P + idx) 0 := by
      ring
    have h4 : x.take (P + idx + 1) = x.take (P + idx) ++ [x.getD (P + idx) 0] := by
      rw [List.take_succ, getElem?_eq_some_getD (show P + idx < x.length by omega)]
      rfl
    rw [h1, h2, h3, ← h4, show P + idx + 1 = P + (idx + 1) from by omega]
    exact ih (idx + 1) (by omega)

/-- `periodic_cumulative_sum` undoes one seasonal differencing pass when fed
the pass's seed block followed by the seasonal difference. -/
theorem periodic_cumulative_sum_inv {P : ℕ} (hP : 1 ≤ P) (x : List ℚ) (h : P < x.length) :
    periodic_cumulative_sum (x.take P ++ seasonalDiffOnce P x) P = .ok x := by
  have hlen : (x.take P ++ seasonalDiffOnce P x).length = x.length := by
    simp [seasonalDiffOnce_length hP]
    omega
  have hstart : (x.take P ++ seasonalDiffOnce P x).take P = x.take P := by
    exact List.take_left' (by simp; omega)
  unfold periodic_cumulative_sum
  rw [if_neg (by omega), if_neg (by omega), hlen, hstart]
  have := pcsLoop_inv hP x (x.length - P) 0 (by omega)
  rw [show P + 0 = P from by omega] at this
  rw [this]

theorem pySliceFrom_last (pv : List ℚ) (P : ℕ) (h : P ≤ pv.length) :
    pySliceFrom ((pv.length : ℤ) - (P : ℤ)) pv = pv.drop (pv.length - P) := by
  unfold pySliceFrom
  rw [if_pos (by omega)]
  congr 1
  omega

/-- Splitting the seasonal de-differencing loop: running `a + b` iterations
is running `a`, then (unless an error stopped it) `b` more. -/
theorem seasonalDeDiffLoop_add (P : ℕ) :
    ∀ (a b : ℕ) (pv c : List ℚ),
      seasonalDeDiffLoop P (a + b) pv c =
        match seasonalDeDiffLoop P a pv c with
        | (pv2, .ok c2) => seasonalDeDiffLoop P b pv2 c2
        | (pv2, .error e) => (pv2, .error e) := by
  intro a
  induction a with
  | zero => intro b pv c; simp [seasonalDeDiffLoop]
  | succ a ih =>
    intro b pv c
    rw [show a + 1 + b = (a + b) + 1 from by omega]
    rw [seasonalDeDiffLoop]
    conv_rhs => rw [seasonalDeDiffLoop]
    cases hres : periodic_cumulative_sum
        (pySliceFrom ((pv.length : ℤ) - (P : ℤ)) pv ++ c) P with
    | error e => simp [hres]
    | ok c2 => simp [hres, ih]

/-- The seasonal de-differencing loop, fed a `prepend_vector` ending in the
seasonal seed blocks and the iterated seasonal difference, pops exactly the
seed blocks (innermost pass first) and reconstructs the series. -/
theorem seasonalDeDiffLoop_inv {P : ℕ} (hP : 1 ≤ P) :
    ∀ (k : ℕ) (q x : List ℚ), k * P + 1 ≤ x.length →
      seasonalDeDiffLoop P k (q ++ seasonalSeeds k P x) (seasonalDiffIter k P x) =
        (q, .ok x) := by
  intro k
  induction k with
  | zero => intro q x h; simp [seasonalSeeds, seasonalDiffIter, seasonalDeDiffLoop]
  | succ k ih =>
    intro q x h
    have hm : (k + 1) * P = k * P + P := Nat.succ_mul k P
    have hPx : P ≤ x.length := by omega
    have htake : (x.take P).length = P := by simp; omega
    rw [seasonalSeeds, seasonalDiffIter, ← List.append_assoc, seasonalDeDiffLoop_add P k 1,
      ih (q ++ x.take P) (seasonalDiffOnce P x) (by rw [seasonalDiffOnce_length hP]; omega)]
    show seasonalDeDiffLoop P 1 (q ++ x.take P) (seasonalDiffOnce P x) = (q, .ok x)
    have hlen : (q ++ x.take P).length = q.length + P := by simp [htake]
    have hdrop : pySliceFrom (((q ++ x.take P).length : ℤ) - (P : ℤ)) (q ++ x.take P)
        = x.take P := by
      rw [pySliceFrom_last (q ++ x.take P) P (by rw [hlen]; omega),
        show (q ++ x.take P).length - P = q.length from by rw [hlen]; omega]
      exact List.drop_left q (x.take P)
    have hpcs : periodic_cumulative_sum (x.take P ++ seasonalDiffOnce P x) P = .ok x :=
      periodic_cumulative_sum_inv hP x (by omega)
    have hpop : (if P = 0 then ([] : List ℚ)
        else (q ++ x.take P).take ((q ++ x.take P).length - P)) = q := by
      rw [if_neg (by omega), show (q ++ x.take P).length - P = q.length from by rw [hlen]; omega]
      exact List.take_left q (x.take P)
    rw [show (1 : ℕ) = 0 + 1 from rfl, seasonalDeDiffLoop]
    simp only [hdrop, hpcs, hpop]
    rw [seasonalDeDiffLoop]

/-- The only errors the seasonal de-differencing loop can produce are the
assertion of `periodic_cumulative_sum` and its `P = 0` index error. -/
theorem seasonalDeDiffLoop_error_class (P : ℕ) :
    ∀ (k : ℕ) (pv c : List ℚ) (e : DiffError),
      (seasonalDeDiffLoop P k pv c).2 = .error e →
      e = .InvalidInput ∨ e = .IndexError := by
  intro k
  induction k with
  | zero => intro pv c e h; simp [seasonalDeDiffLoop] at h
  | succ k ih =>
    intro pv c e h
    rw [seasonalDeDiffLoop] at h
    revert h
    cases hres : periodic_cumulative_sum
        (pySliceFrom ((pv.length : ℤ) - (P : ℤ)) pv ++ c) P with
    | error e2 =>
      intro h
      simp at h
      have : e2 = .InvalidInput ∨ e2 = .IndexError := by
        revert hres
        unfold periodic_cumulative_sum
        split
        · intro hx; cases hx; exact Or.inl rfl
        · split
          · intro hx; cases hx; exact Or.inr rfl
          · intro hx; cases hx
      exact h ▸ this
    | ok c2 =>
      intro h
      simp at h
      exact ih _ _ _ h

/-- Evaluation of the forward transform when it does not raise: the asserts
hold and (when `k_diff ≥ 1`) the seasonally shortened series is still at
least `k_diff` long.  `original_vector` receives the input,
`prepend_vector` grows by the seasonal seed blocks followed by the simple
seeds, and the returned series is the order-`k_diff` difference of the
`k_seasonal_diff`-fold seasonal difference. -/
theorem difference_body_eq (st : TimeSeriesDifferencing) (s : List ℚ)
    (hP : 0 < st.k_seasonal_diff → 1 ≤ st.seasonal_periods)
    (hkd : 1 ≤ st.k_diff → st.k_diff + st.k_seasonal_diff * st.seasonal_periods ≤ s.length) :
    difference_body st s =
      ({ st with
          original_vector := s,
          prepend_vector := st.prepend_vector
            ++ seasonalSeeds st.k_seasonal_diff st.seasonal_periods s
            ++ simpleSeeds st.k_diff (seasonalDiffIter st.k_seasonal_diff st.seasonal_periods s),
          final_difference_vector :=
            npDiffK st.k_diff (seasonalDiffIter st.k_seasonal_diff st.seasonal_periods s) },
        .ok (npDiffK st.k_diff (seasonalDiffIter st.k_seasonal_diff st.seasonal_periods s))) := by
  have hguard : ¬ (1 ≤ st.k_diff ∧
      (seasonalDiffIter st.k_seasonal_diff st.seasonal_periods s).length < st.k_diff) := by
    rintro ⟨h1, h2⟩
    have hk := hkd h1
    rcases Nat.eq_zero_or_pos st.k_seasonal_diff with hks | hks
    · rw [hks] at hk h2
      simp [seasonalDiffIter] at h2
      omega
    · rw [seasonalDiffIter_length (hP hks)] at h2
      omega
  unfold difference_body
  rw [difference_time_series_seasonal_eq]
  simp only [hguard, if_false, List.append_assoc]
  rfl

/-- The checked entry point, under the same hypotheses plus the asserts. -/
theorem difference_time_series_eq (st : TimeSeriesDifferencing) (s : List ℚ)
    (hP : 0 < st.k_seasonal_diff → 1 ≤ st.seasonal_periods)
    (hmax : max st.k_diff st.k_seasonal_diff ≤ s.length)
    (hkd : 1 ≤ st.k_diff → st.k_diff + st.k_seasonal_diff * st.seasonal_periods ≤ s.length) :
    difference_time_series st s =
      ({ st with
          original_vector := s,
          prepend_vector := st.prepend_vector
            ++ seasonalSeeds st.k_seasonal_diff st.seasonal_periods s
            ++ simpleSeeds st.k_diff (seasonalDiffIter st.k_seasonal_diff st.seasonal_periods s),
          final_difference_vector :=
            npDiffK st.k_diff (seasonalDiffIter st.k_seasonal_diff st.seasonal_periods s) },
        .ok (npDiffK st.k_diff (seasonalDiffIter st.k_seasonal_diff st.seasonal_periods s))) := by
  unfold difference_time_series
  rw [if_neg (by omega), if_neg (by rintro ⟨h1, h2⟩; have := hP h1; omega)]
  exact difference_body_eq st s hP hkd

/-- Full-path evaluation of the inverse transform on the state left by a
matching forward call: feeding the stored final difference vector back pops
the simple seeds from the tail of `prepend_vector` (innermost order first),
then the seasonal seed blocks (last pass first), and returns the stored
original series exactly; `prepend_vector` is left as it was before the
forward call appended its seeds. -/
theorem de_difference_of_final (st : TimeSeriesDifferencing) (q s : List ℚ)
    (horig : st.original_vector = s)
    (hfinal : st.final_difference_vector =
      npDiffK st.k_diff (seasonalDiffIter st.k_seasonal_diff st.seasonal_periods s))
    (hpv : st.prepend_vector = q
      ++ seasonalSeeds st.k_seasonal_diff st.seasonal_periods s
      ++ simpleSeeds st.k_diff (seasonalDiffIter st.k_seasonal_diff st.seasonal_periods s))
    (hP : 0 < st.k_seasonal_diff → 1 ≤ st.seasonal_periods)
    (hlen : st.k_diff + st.k_seasonal_diff * st.seasonal_periods < s.length) :
    de_difference_time_series st st.final_difference_vector =
      ({ st with prepend_vector := q }, .ok s) := by
  set kd := st.k_diff with hkd
  set ks := st.k_seasonal_diff with hks
  set P := st.seasonal_periods with hsp
  set X := seasonalDiffIter ks P s with hXdef
  set SS := seasonalSeeds ks P s with hSSdef
  set D := simpleSeeds kd X with hDdef
  have hXlen : X.length = s.length - ks * P := by
    rcases Nat.eq_zero_or_pos ks with h0 | hpos
    · rw [hXdef, h0]
      simp [seasonalDiffIter]
    · rw [hXdef, seasonalDiffIter_length (hP hpos)]
  have hFlen : (npDiffK kd X).length = s.length - ks * P - kd := by
    rw [npDiffK_length, hXlen]
  have hsne : s ≠ [] := by
    apply List.ne_nil_of_length_pos
    omega
  have hFne : npDiffK kd X ≠ [] := by
    apply List.ne_nil_of_length_pos
    rw [hFlen]
    omega
  have hDlen : D.length = kd := by rw [hDdef, simpleSeeds_length]
  by_cases h00 : kd = 0 ∧ ks = 0
  · obtain ⟨h1, h2⟩ := h00
    have hXs : X = s := by rw [hXdef, h2]; simp [seasonalDiffIter]
    have hFs : npDiffK kd X = s := by rw [h1, hXs]; simp [npDiffK]
    have hq : st.prepend_vector = q := by
      have hSSnil : SS = [] := by rw [hSSdef, h2]; simp [seasonalSeeds]
      have hDnil : D = [] := by rw [hDdef, h1]; simp [simpleSeeds]
      rw [hpv, hSSnil, hDnil]
      simp
    have hst : ({ st with prepend_vector := q } : TimeSeriesDifferencing) = st := by
      rw [← hq]
    rw [hst]
    unfold de_difference_time_series
    rw [horig, hfinal]
    rw [if_neg hsne, if_neg (by rw [hFs]; exact hsne), if_pos ⟨h1, h2⟩, hFs]
  · have hc1 : simpleDeDiffLoop st.prepend_vector kd 1 (npDiffK kd X) = X := by
      rw [hpv]
      have happ := simpleDeDiffLoop_append (q ++ SS) D (npDiffK kd X)
      rw [hDlen] at happ
      rw [happ, hDdef]
      exact undiffRev_simpleSeeds kd X (by omega)
    have hpv1 : (if kd = 0 then st.prepend_vector
        else st.prepend_vector.take (st.prepend_vector.length - kd)) = q ++ SS := by
      by_cases hkd0 : kd = 0
      · rw [if_pos hkd0, hpv]
        have hDnil : D = [] := by rw [hDdef, hkd0]; simp [simpleSeeds]
        rw [hDnil]
        simp
      · rw [if_neg hkd0, hpv]
        rw [show (q ++ SS ++ D).length - kd = (q ++ SS).length from by
          simp only [List.length_append, hDlen]; omega]
        exact List.take_left (q ++ SS) D
    have hseason : seasonalDeDiffLoop P ks (q ++ SS) X = (q, .ok s) := by
      rcases Nat.eq_zero_or_pos ks with h0 | hpos
      · have hSSnil : SS = [] := by rw [hSSdef, h0]; simp [seasonalSeeds]
        have hXs : X = s := by rw [hXdef, h0]; simp [seasonalDiffIter]
        rw [h0, hSSnil, hXs]
        simp [seasonalDeDiffLoop]
      · rw [hSSdef, hXdef]
        exact seasonalDeDiffLoop_inv (hP hpos) ks q s (by
          have hm := Nat.succ_mul ks P
          omega)
    simp only [de_difference_time_series, de_difference_body]
    rw [horig, hfinal]
    rw [if_neg hsne, if_neg hFne, if_neg h00]
    rw [← hkd, ← hks, ← hsp]
    rw [if_neg (show ¬ ((npDiffK kd X).length + (kd + ks * P) ≠ s.length) from by
      rw [hFlen]; omega)]
    rw [if_neg (show ¬ ((npDiffK kd X).length ≠ (npDiffK kd X).length) from by simp)]
    rw [if_true]
    rw [if_neg (show ¬ (1 ≤ kd ∧ st.prepend_vector.length < kd) from by
      rintro ⟨_, hcon⟩
      rw [hpv] at hcon
      simp only [List.length_append, hDlen] at hcon
      omega)]
    rw [hc1, hpv1, hseason]

/-- Both branches of the forward body store the input in `original_vector`
(line 67 runs before the simple-differencing pass can raise). -/
theorem difference_body_original (st : TimeSeriesDifferencing) (s : List ℚ) :
    (difference_body st s).1.original_vector = s := by
  simp only [difference_body]
  split
  · rfl
  · rfl

/-!  Claim theorems. -/

/-- C6: `de_difference_time_series` fails with the `MissingState` condition
on every input series (empty ones included) whenever `original_vector` is
empty, i.e. whenever no (state-setting) `difference_time_series` call has
happened; the check is the first one of the method and the state is
untouched. -/
theorem de_difference_missing_state (st : TimeSeriesDifferencing) (series : List ℚ)
    (h : st.original_vector = []) :
    de_difference_time_series st series = (st, .error .MissingState) := by
  unfold de_difference_time_series
  rw [if_pos h]

theorem de_difference_missing_state_witness :
    de_difference_time_series ⟨1, 0, 1, [], [], []⟩ [1, 2] =
      (⟨1, 0, 1, [], [], []⟩, .error .MissingState) :=
  de_difference_missing_state ⟨1, 0, 1, [], [], []⟩ [1, 2] rfl

/-- C5: with a prior state-setting call (`original_vector` nonempty), a
nonempty input and at least one differencing order configured, a length
bookkeeping violation `len(series) + diff_total ≠ len(original_vector)`
makes `de_difference_time_series` fail with `LengthMismatch` instead of
returning a series; the assert runs before any mutation. -/
theorem de_difference_length_mismatch (st : TimeSeriesDifferencing) (series : List ℚ)
    (hmiss : st.original_vector ≠ []) (hne : series ≠ [])
    (hk : ¬ (st.k_diff = 0 ∧ st.k_seasonal_diff = 0))
    (hlen : series.length + (st.k_diff + st.k_seasonal_diff * st.seasonal_periods)
      ≠ st.original_vector.length) :
    de_difference_time_series st series = (st, .error .LengthMismatch) := by
  simp only [de_difference_time_series, de_difference_body]
  rw [if_neg hmiss, if_neg hne, if_neg hk, if_pos hlen]

theorem de_difference_length_mismatch_witness :
    de_difference_time_series ⟨1, 0, 1, [1, 2, 3], [1, 1], [1]⟩ [5] =
      (⟨1, 0, 1, [1, 2, 3], [1, 1], [1]⟩, .error .LengthMismatch) :=
  de_difference_length_mismatch ⟨1, 0, 1, [1, 2, 3], [1, 1], [1]⟩ [5]
    (by simp) (by simp) (by simp) (by simp)

/-- C10: the two short-circuit paths of `de_difference_time_series` return
without touching any engine field: an empty input returns `original_vector`
with the state unchanged, and a zero-orders configuration returns the input
with the state unchanged; in particular no seed is consumed from
`prepend_vector` on either path. -/
theorem de_difference_short_circuits_pure (st : TimeSeriesDifferencing) (series : List ℚ) :
    (st.original_vector ≠ [] → series = [] →
      de_difference_time_series st series = (st, .ok st.original_vector)) ∧
    (st.original_vector ≠ [] → series ≠ [] → st.k_diff = 0 → st.k_seasonal_diff = 0 →
      de_difference_time_series st series = (st, .ok series)) := by
  constructor
  · intro h1 h2
    unfold de_difference_time_series
    rw [if_neg h1, if_pos h2]
  · intro h1 h2 h3 h4
    unfold de_difference_time_series
    rw [if_neg h1, if_neg h2, if_pos ⟨h3, h4⟩]

theorem de_difference_short_circuits_pure_witness :
    de_difference_time_series ⟨1, 0, 1, [1, 2], [1], [1]⟩ [] =
      (⟨1, 0, 1, [1, 2], [1], [1]⟩, .ok [1, 2]) ∧
    de_difference_time_series ⟨0, 0, 1, [1, 2], [1], [1]⟩ [7, 8] =
      (⟨0, 0, 1, [1, 2], [1], [1]⟩, .ok [7, 8]) :=
  ⟨(de_difference_short_circuits_pure ⟨1, 0, 1, [1, 2], [1], [1]⟩ []).1 (by simp) rfl,
   (de_difference_short_circuits_pure ⟨0, 0, 1, [1, 2], [1], [1]⟩ [7, 8]).2
     (by simp) (by simp) rfl rfl⟩

/-- C7 counterexample: a fully valid `difference_time_series` call on the
EMPTY series (accepted when both orders are 0, since `len([]) ≥ max(0,0)`)
stores the empty `original_vector`; the subsequent `de_difference([])` then
raises `MissingState` instead of returning that stored `original_vector`,
because an empty stored vector is indistinguishable from a missing one. -/
theorem empty_pass_through_fails_after_empty_difference :
    (difference_time_series ⟨0, 0, 5, [], [], []⟩ []).2 = .ok [] ∧
    (difference_time_series ⟨0, 0, 5, [], [], []⟩ []).1.original_vector = [] ∧
    de_difference_time_series (difference_time_series ⟨0, 0, 5, [], [], []⟩ []).1 [] =
      ((difference_time_series ⟨0, 0, 5, [], [], []⟩ []).1, .error .MissingState) := by
  refine ⟨?_, ?_, ?_⟩ <;>
    simp [difference_time_series, difference_body, difference_time_series_seasonal,
      npDiffK, de_difference_time_series]

/-- C7 amended: after any accepted `difference_time_series` call on a
NONEMPTY series, `de_difference_time_series` on an empty input returns
exactly the stored `original_vector`, which is that series, leaving the
state unchanged. -/
theorem de_difference_empty_input_returns_original
    (st : TimeSeriesDifferencing) (s : List ℚ) (hs : s ≠ [])
    (hP : 0 < st.k_seasonal_diff → 1 ≤ st.seasonal_periods)
    (hmax : max st.k_diff st.k_seasonal_diff ≤ s.length) :
    (difference_time_series st s).1.original_vector = s ∧
    de_difference_time_series (difference_time_series st s).1 [] =
      ((difference_time_series st s).1, .ok s) := by
  have horig : (difference_time_series st s).1.original_vector = s := by
    unfold difference_time_series
    rw [if_neg (by omega), if_neg (by rintro ⟨h1, h2⟩; have := hP h1; omega)]
    exact difference_body_original st s
  refine ⟨horig, ?_⟩
  unfold de_difference_time_series
  rw [horig, if_neg hs, if_pos rfl]

theorem de_difference_empty_input_returns_original_witness :
    (difference_time_series ⟨1, 1, 2, [], [], []⟩ [1, 2, 3, 4, 5]).1.original_vector
        = [1, 2, 3, 4, 5] ∧
    de_difference_time_series (difference_time_series ⟨1, 1, 2, [], [], []⟩ [1, 2, 3, 4, 5]).1 [] =
      ((difference_time_series ⟨1, 1, 2, [], [], []⟩ [1, 2, 3, 4, 5]).1, .ok [1, 2, 3, 4, 5]) :=
  de_difference_empty_input_returns_original ⟨1, 1, 2, [], [], []⟩ [1, 2, 3, 4, 5]
    (by simp) (fun _ => by norm_num) (by norm_num)

/-- C2 counterexample: the spec's stated precondition
`len(series) ≥ max(k_diff, k_seasonal_diff)` holds for the configuration
`k_diff = 0, k_seasonal_diff = 1, seasonal_periods = 5` on the length-3
series `[1, 2, 3]` (3 ≥ max(0, 1)), and the call succeeds; but
`prepend_vector` grows by only 3 elements, not by
`diff_total = 0 + 1 * 5 = 5`, and the final difference vector is empty, so
its length plus `diff_total` is 5, not 3. -/
theorem length_invariant_fails_within_spec_precondition :
    max 0 1 ≤ 3 ∧
    (difference_time_series ⟨0, 1, 5, [], [], []⟩ [1, 2, 3]).2 = .ok [] ∧
    (difference_time_series ⟨0, 1, 5, [], [], []⟩ [1, 2, 3]).1.prepend_vector = [1, 2, 3] ∧
    (difference_time_series ⟨0, 1, 5, [], [], []⟩ [1, 2, 3]).1.final_difference_vector.length
        + (0 + 1 * 5) ≠ 3 := by
  refine ⟨by norm_num, ?_, ?_, ?_⟩ <;>
    simp [difference_time_series, difference_body, difference_time_series_seasonal,
      seasonalDiffOnce, npDiffK]

/-- C2 amended: under the corrected precondition
`len(series) ≥ diff_total = k_diff + k_seasonal_diff * seasonal_periods`
(with `seasonal_periods ≥ 1` whenever `k_seasonal_diff > 0`),
`difference_time_series` succeeds, the stored final difference vector
satisfies `len(final_difference_vector) + diff_total = len(series)`, and
`prepend_vector` grows by exactly `diff_total` elements. -/
theorem length_invariant_of_difference (st : TimeSeriesDifferencing) (s : List ℚ)
    (hP : 0 < st.k_seasonal_diff → 1 ≤ st.seasonal_periods)
    (hlen : st.k_diff + st.k_seasonal_diff * st.seasonal_periods ≤ s.length) :
    (difference_time_series st s).2
        = .ok (difference_time_series st s).1.final_difference_vector ∧
    (difference_time_series st s).1.final_difference_vector.length
        + (st.k_diff + st.k_seasonal_diff * st.seasonal_periods) = s.length ∧
    (difference_time_series st s).1.prepend_vector.length
        = st.prepend_vector.length
          + (st.k_diff + st.k_seasonal_diff * st.seasonal_periods) := by
  have hmax : max st.k_diff st.k_seasonal_diff ≤ s.length := by
    rcases Nat.eq_zero_or_pos st.k_seasonal_diff with h0 | hpos
    · rw [h0]
      simp only [max_le_iff]
      omega
    · have h1 := hP hpos
      have h2 : st.k_seasonal_diff * 1 ≤ st.k_seasonal_diff * st.seasonal_periods :=
        Nat.mul_le_mul_left _ h1
      rw [Nat.mul_one] at h2
      simp only [max_le_iff]
      omega
  rw [difference_time_series_eq st s hP hmax (fun _ => hlen)]
  refine ⟨rfl, ?_, ?_⟩
  · show (npDiffK st.k_diff
        (seasonalDiffIter st.k_seasonal_diff st.seasonal_periods s)).length
      + (st.k_diff + st.k_seasonal_diff * st.seasonal_periods) = s.length
    rw [npDiffK_length]
    rcases Nat.eq_zero_or_pos st.k_seasonal_diff with h0 | hpos
    · rw [h0]
      simp [seasonalDiffIter]
      omega
    · rw [seasonalDiffIter_length (hP hpos)]
      omega
  · show (st.prepend_vector
        ++ seasonalSeeds st.k_seasonal_diff st.seasonal_periods s
        ++ simpleSeeds st.k_diff
          (seasonalDiffIter st.k_seasonal_diff st.seasonal_periods s)).length
      = st.prepend_vector.length + (st.k_diff + st.k_seasonal_diff * st.seasonal_periods)
    rcases Nat.eq_zero_or_pos st.k_seasonal_diff with h0 | hpos
    · rw [h0]
      simp [seasonalSeeds, simpleSeeds_length]
    · have hSS := seasonalSeeds_length (hP hpos) st.k_seasonal_diff s (by omega)
      simp [hSS, simpleSeeds_length]
      omega

theorem length_invariant_of_difference_witness :
    (difference_time_series ⟨1, 1, 2, [], [], []⟩ [1, 2, 3, 4, 5]).2
        = .ok (difference_time_series ⟨1, 1, 2, [], [], []⟩ [1, 2, 3, 4, 5]
            ).1.final_difference_vector ∧
    (difference_time_series ⟨1, 1, 2, [], [], []⟩ [1, 2, 3, 4, 5]
        ).1.final_difference_vector.length + (1 + 1 * 2) = 5 ∧
    (difference_time_series ⟨1, 1, 2, [], [], []⟩ [1, 2, 3, 4, 5]).1.prepend_vector.length
        = 0 + (1 + 1 * 2) :=
  length_invariant_of_difference ⟨1, 1, 2, [], [], []⟩ [1, 2, 3, 4, 5]
    (fun _ => by norm_num) (by norm_num)

theorem max_le_of_diff_total_le (kd ks P n : ℕ) (hP : 0 < ks → 1 ≤ P)
    (h : kd + ks * P ≤ n) : max kd ks ≤ n := by
  rcases Nat.eq_zero_or_pos ks with h0 | hpos
  · subst h0
    simp only [max_le_iff]
    omega
  · have h1 := hP hpos
    have h2 : ks * 1 ≤ ks * P := Nat.mul_le_mul_left _ h1
    rw [Nat.mul_one] at h2
    simp only [max_le_iff]
    omega

/-- C4: the mirror-image stack discipline of `prepend_vector`.  A successful
forward call on a series strictly longer than `diff_total` appends exactly
the seasonal seed blocks (the first `seasonal_periods` elements of the
current series, one block per pass) followed by the simple seeds (the first
element of each difference order `0 .. k_diff - 1`), `ks * P + kd =
diff_total` elements in total; the matching full-path inverse call removes
exactly those `diff_total` elements from the tail (simple seeds first,
innermost order first, then the seasonal blocks, last pass first), restoring
`prepend_vector` to its value before the forward call, and reconstructs the
series. -/
theorem prepend_vector_stack_discipline
    (st st1 : TimeSeriesDifferencing) (s F : List ℚ)
    (hP : 0 < st.k_seasonal_diff → 1 ≤ st.seasonal_periods)
    (hlen : st.k_diff + st.k_seasonal_diff * st.seasonal_periods < s.length)
    (hd : difference_time_series st s = (st1, .ok F)) :
    st1.prepend_vector = st.prepend_vector
        ++ seasonalSeeds st.k_seasonal_diff st.seasonal_periods s
        ++ simpleSeeds st.k_diff
          (seasonalDiffIter st.k_seasonal_diff st.seasonal_periods s) ∧
    (seasonalSeeds st.k_seasonal_diff st.seasonal_periods s).length
        = st.k_seasonal_diff * st.seasonal_periods ∧
    (simpleSeeds st.k_diff
        (seasonalDiffIter st.k_seasonal_diff st.seasonal_periods s)).length = st.k_diff ∧
    F = st1.final_difference_vector ∧
    de_difference_time_series st1 F =
      ({ st1 with prepend_vector := st.prepend_vector }, .ok s) := by
  rw [difference_time_series_eq st s hP
    (max_le_of_diff_total_le _ _ _ _ hP (by omega)) (fun _ => by omega)] at hd
  injection hd with hA hB
  injection hB with hF
  subst hA
  subst hF
  refine ⟨rfl, ?_, simpleSeeds_length _ _, rfl, ?_⟩
  · rcases Nat.eq_zero_or_pos st.k_seasonal_diff with h0 | hpos
    · rw [h0]
      simp [seasonalSeeds]
    · exact seasonalSeeds_length (hP hpos) st.k_seasonal_diff s (by omega)
  · have h3 := de_difference_of_final
      ({ st with
          original_vector := s,
          prepend_vector := st.prepend_vector
            ++ seasonalSeeds st.k_seasonal_diff st.seasonal_periods s
            ++ simpleSeeds st.k_diff
              (seasonalDiffIter st.k_seasonal_diff st.seasonal_periods s),
          final_difference_vector :=
            npDiffK st.k_diff (seasonalDiffIter st.k_seasonal_diff st.seasonal_periods s) })
      st.prepend_vector s rfl rfl rfl hP hlen
    exact h3

/-- C1 amended: for every accepted nonempty series on which
`difference_time_series` returns (which for `k_diff ≥ 1` additionally
requires `len(series) ≥ diff_total`), `de_difference_time_series` applied
to the returned final difference vector reproduces the input series
exactly, and that vector is the stored `final_difference_vector`, so
`de_difference(final_difference_vector)` reproduces `original_vector`. -/
theorem round_trip_difference_de_difference
    (st st1 : TimeSeriesDifferencing) (s F : List ℚ) (hs : s ≠ [])
    (hP : 0 < st.k_seasonal_diff → 1 ≤ st.seasonal_periods)
    (hmax : max st.k_diff st.k_seasonal_diff ≤ s.length)
    (hkd : 1 ≤ st.k_diff →
      st.k_diff + st.k_seasonal_diff * st.seasonal_periods ≤ s.length)
    (hd : difference_time_series st s = (st1, .ok F)) :
    st1.original_vector = s ∧ st1.final_difference_vector = F ∧
    (de_difference_time_series st1 F).2 = .ok s := by
  rw [difference_time_series_eq st s hP hmax hkd] at hd
  injection hd with hA hB
  injection hB with hF
  subst hA
  subst hF
  refine ⟨rfl, rfl, ?_⟩
  by_cases hfull : st.k_diff + st.k_seasonal_diff * st.seasonal_periods < s.length
  · have h3 := de_difference_of_final
      ({ st with
          original_vector := s,
          prepend_vector := st.prepend_vector
            ++ seasonalSeeds st.k_seasonal_diff st.seasonal_periods s
            ++ simpleSeeds st.k_diff
              (seasonalDiffIter st.k_seasonal_diff st.seasonal_periods s),
          final_difference_vector :=
            npDiffK st.k_diff (seasonalDiffIter st.k_seasonal_diff st.seasonal_periods s) })
      st.prepend_vector s rfl rfl rfl hP hfull
    rw [h3]
  · have hXlen : (seasonalDiffIter st.k_seasonal_diff st.seasonal_periods s).length
        = s.length - st.k_seasonal_diff * st.seasonal_periods := by
      rcases Nat.eq_zero_or_pos st.k_seasonal_diff with h0 | hpos
      · rw [h0]
        simp [seasonalDiffIter]
      · rw [seasonalDiffIter_length (hP hpos)]
    have hFnil : npDiffK st.k_diff
        (seasonalDiffIter st.k_seasonal_diff st.seasonal_periods s) = [] := by
      apply List.eq_nil_of_length_eq_zero
      rw [npDiffK_length, hXlen]
      rcases Nat.eq_zero_or_pos st.k_diff with hk0 | hkpos
      · omega
      · have := hkd hkpos
        omega
    rw [hFnil]
    unfold de_difference_time_series
    rw [if_neg (show ¬ (s = []) from hs), if_pos rfl]

theorem prepend_vector_stack_discipline_witness :
    de_difference_time_series ⟨1, 1, 2, [1, 2, 3, 4, 5], [0, 0], [1, 2, 2]⟩ [0, 0] =
      (⟨1, 1, 2, [1, 2, 3, 4, 5], [0, 0], []⟩, .ok [1, 2, 3, 4, 5]) := by
  have h := prepend_vector_stack_discipline ⟨1, 1, 2, [], [], []⟩
    ⟨1, 1, 2, [1, 2, 3, 4, 5], [0, 0], [1, 2, 2]⟩ [1, 2, 3, 4, 5] [0, 0]
    (fun _ => by norm_num) (by norm_num)
    (by norm_num [difference_time_series, difference_body, difference_time_series_seasonal,
      seasonalDiffOnce, npDiffK, npDiff1, List.range_succ])
  exact h.2.2.2.2

theorem round_trip_difference_de_difference_witness :
    (de_difference_time_series ⟨2, 0, 1, [1, 3, 6, 10, 15], [1, 1, 1], [1, 2]⟩
        [1, 1, 1]).2 = .ok [1, 3, 6, 10, 15] := by
  have h := round_trip_difference_de_difference ⟨2, 0, 1, [], [], []⟩
    ⟨2, 0, 1, [1, 3, 6, 10, 15], [1, 1, 1], [1, 2]⟩ [1, 3, 6, 10, 15] [1, 1, 1]
    (by simp) (fun hc => absurd hc (by norm_num)) (by norm_num) (fun _ => by norm_num)
    (by norm_num [difference_time_series, difference_body, difference_time_series_seasonal,
      npDiffK, npDiff1, List.range_succ])
  exact h.2.2

/-- C1 counterexample: the configuration `k_diff = 0, k_seasonal_diff = 0,
seasonal_periods = 1` is valid per the spec and the empty series satisfies
the stated length precondition `len(s) ≥ max(0, 0)`; `difference` succeeds
and returns the empty series, but `de_difference` of that result raises
`MissingState` instead of returning `s`, because the stored empty
`original_vector` is indistinguishable from a missing one. -/
theorem round_trip_fails_on_empty_series :
    (difference_time_series ⟨0, 0, 1, [], [], []⟩ []).2 = .ok [] ∧
    (de_difference_time_series (difference_time_series ⟨0, 0, 1, [], [], []⟩ []).1
        []).2 = .error .MissingState := by
  constructor <;>
    simp [difference_time_series, difference_body, difference_time_series_seasonal,
      npDiffK, de_difference_time_series]

/-- C8 counterexample: the call `difference_time_series([1, 2])` on the
configuration `k_diff = 2, k_seasonal_diff = 1, seasonal_periods = 1`
passes all validation asserts (`2 ≥ max(2, 1)`, period ≥ 1) but fails
later, extracting the simple seeds from the seasonally shortened
length-1 series (`dfv[0]` on an empty difference vector); at that point
`original_vector` and `prepend_vector` have already been overwritten, so
the failing call does NOT leave the engine state as it was. -/
theorem failed_difference_call_mutates_state :
    (difference_time_series ⟨2, 1, 1, [], [], []⟩ [1, 2]).2 = .error .IndexError ∧
    (difference_time_series ⟨2, 1, 1, [], [], []⟩ [1, 2]).1.original_vector = [1, 2] ∧
    (difference_time_series ⟨2, 1, 1, [], [], []⟩ [1, 2]).1.prepend_vector = [1] ∧
    (difference_time_series ⟨2, 1, 1, [], [], []⟩ [1, 2]).1 ≠ ⟨2, 1, 1, [], [], []⟩ := by
  refine ⟨?_, ?_, ?_, ?_⟩ <;>
    simp [difference_time_series, difference_body, difference_time_series_seasonal,
      seasonalDiffOnce]

/-- C8 amended: every call that fails one of the validation checks leaves
the engine state exactly as before the call: a `difference_time_series`
call failing with `InvalidInput` (its asserts run before any mutation)
returns the unchanged state, and a `de_difference_time_series` call
failing with `MissingState`, `LengthMismatch` or a combination
broadcasting error returns the unchanged state.  (The claim's universal
form is false: a `difference` call can fail with an index error after
mutating `original_vector` and `prepend_vector`, and an out-of-sequence
`de_difference` call can fail inside the seasonal reconstruction after
seeds were already popped.) -/
theorem validation_failures_leave_state_unchanged
    (st : TimeSeriesDifferencing) (series : List ℚ) :
    ((difference_time_series st series).2 = .error .InvalidInput →
      (difference_time_series st series).1 = st) ∧
    (∀ e, (de_difference_time_series st series).2 = .error e →
      e = .MissingState ∨ e = .LengthMismatch ∨ e = .BroadcastError →
      (de_difference_time_series st series).1 = st) := by
  constructor
  · unfold difference_time_series
    split
    · intro _; rfl
    · split
      · intro _; rfl
      · simp only [difference_body]
        split
        · intro h
          exact absurd (Except.error.inj h) (by simp)
        · intro h
          simp at h
  · intro e
    unfold de_difference_time_series
    split
    · intro _ _; rfl
    · split
      · intro h; simp at h
      · split
        · intro h; simp at h
        · simp only [de_difference_body]
          split
          · intro _ _; rfl
          · split
            · intro _ _; rfl
            · split
              · intro h hcl
                have he := Except.error.inj h
                exfalso
                rw [← he] at hcl
                simp at hcl
              · intro h hcl
                have hcls := seasonalDeDiffLoop_error_class st.seasonal_periods
                  st.k_seasonal_diff _ _ e (by exact h)
                exfalso
                rcases hcls with h1 | h1 <;> subst h1 <;> simp at hcl

theorem validation_failures_leave_state_unchanged_witness :
    (difference_time_series ⟨1, 0, 1, [], [], []⟩ []).1 = ⟨1, 0, 1, [], [], []⟩ ∧
    (de_difference_time_series ⟨1, 0, 1, [1, 2, 3], [1, 1], [1]⟩ [9]).1
      = ⟨1, 0, 1, [1, 2, 3], [1, 1], [1]⟩ :=
  ⟨(validation_failures_leave_state_unchanged ⟨1, 0, 1, [], [], []⟩ []).1
      (by simp [difference_time_series]),
   (validation_failures_leave_state_unchanged ⟨1, 0, 1, [1, 2, 3], [1, 1], [1]⟩ [9]).2
      .LengthMismatch
      (by simp [de_difference_time_series, de_difference_body])
      (Or.inr (Or.inl rfl))⟩

/-- C9 counterexample: a `(1, 5)` row vector is NOT treated like its
flattened one-dimensional equivalent by `difference_time_series`: the
length assert of line 61 reads Python's `len`, the FIRST dimension (here
1), before the reshape of line 66, so with `k_diff = 2` the row vector is
rejected with `InvalidInput` while the flattened data is accepted and
differenced. -/
theorem row_vector_difference_not_flattened :
    is_array_one_dimensional [1, 5] ∧
    (difference_time_series_nd ⟨2, 0, 1, [], [], []⟩ ⟨[1, 5], [1, 2, 3, 4, 5]⟩).2
        = .error .InvalidInput ∧
    (difference_time_series ⟨2, 0, 1, [], [], []⟩ [1, 2, 3, 4, 5]).2 = .ok [0, 0, 0] := by
  refine ⟨by decide, by decide, ?_⟩
  norm_num [difference_time_series, difference_body, difference_time_series_seasonal,
    npDiffK, npDiff1, List.range_succ]

/-- C9 amended: the shape check accepts exactly the arrays in which at most
one dimension exceeds 1.  `de_difference_time_series` on any accepted
array behaves exactly as on the flattened data (its length checks run
after the reshape).  `difference_time_series` behaves as on the flattened
data whenever Python's `len` of the array (its FIRST dimension) equals the
flattened length — so for one-dimensional and column-vector `(n, 1)`
inputs, but not in general for row vectors `(1, n)`, whose length reads as
1 before the reshape.  Arrays with at least two dimensions larger than 1
fail the shape assert with `InvalidInput` in both methods (in
`de_difference_time_series` the `MissingState` check still runs first). -/
theorem nd_array_shape_handling (st : TimeSeriesDifferencing) (a : NDArray) :
    (is_array_one_dimensional a.shape →
      de_difference_time_series_nd st a = de_difference_time_series st a.data) ∧
    (is_array_one_dimensional a.shape → pyLen a.shape = a.data.length →
      difference_time_series_nd st a = difference_time_series st a.data) ∧
    (¬ is_array_one_dimensional a.shape →
      difference_time_series_nd st a = (st, .error .InvalidInput) ∧
      (st.original_vector ≠ [] →
        de_difference_time_series_nd st a = (st, .error .InvalidInput))) := by
  refine ⟨?_, ?_, ?_⟩
  · intro hsh
    unfold de_difference_time_series_nd de_difference_time_series
    by_cases horig : st.original_vector = []
    · rw [if_pos horig, if_pos horig]
    · rw [if_neg horig, if_neg horig, if_neg (not_not_intro hsh)]
  · intro hsh hlen
    unfold difference_time_series_nd difference_time_series
    rw [if_neg (not_not_intro hsh), hlen]
  · intro hsh
    constructor
    · unfold difference_time_series_nd
      rw [if_pos hsh]
    · intro horig
      unfold de_difference_time_series_nd
      rw [if_neg horig, if_pos hsh]

theorem nd_array_shape_handling_witness :
    de_difference_time_series_nd ⟨1, 0, 1, [1, 2], [1], [1]⟩ ⟨[2, 1], [1]⟩
        = de_difference_time_series ⟨1, 0, 1, [1, 2], [1], [1]⟩ [1] ∧
    difference_time_series_nd ⟨1, 0, 1, [], [], []⟩ ⟨[3, 1], [1, 2, 3]⟩
        = difference_time_series ⟨1, 0, 1, [], [], []⟩ [1, 2, 3] ∧
    difference_time_series_nd ⟨1, 0, 1, [], [], []⟩ ⟨[2, 2], [1, 2, 3, 4]⟩
        = (⟨1, 0, 1, [], [], []⟩, .error .InvalidInput) :=
  ⟨(nd_array_shape_handling ⟨1, 0, 1, [1, 2], [1], [1]⟩ ⟨[2, 1], [1]⟩).1
      (by simp [is_array_one_dimensional]),
   (nd_array_shape_handling ⟨1, 0, 1, [], [], []⟩ ⟨[3, 1], [1, 2, 3]⟩).2.1
      (by simp [is_array_one_dimensional]) (by simp [pyLen]),
   ((nd_array_shape_handling ⟨1, 0, 1, [], [], []⟩ ⟨[2, 2], [1, 2, 3, 4]⟩).2.2
      (by simp [is_array_one_dimensional])).1⟩

/-!  Commutation of simple and seasonal differencing (claim C3). -/

theorem npDiff1_getElem?_lt : ∀ (s : List ℚ) (i : ℕ), i + 1 < s.length →
    (npDiff1 s)[i]? = some (s.getD (i + 1) 0 - s.getD i 0) := by
  intro s
  induction s with
  | nil => intro i h; simp at h
  | cons a t ih =>
    intro i h
    cases t with
    | nil => simp at h
    | cons b t2 =>
      cases i with
      | zero => simp [npDiff1]
      | succ j =>
        rw [show npDiff1 (a :: b :: t2) = (b - a) :: npDiff1 (b :: t2) from rfl,
          List.getElem?_cons_succ, ih j (by simp at h ⊢; omega)]
        simp

theorem npDiff1_getD_lt (s : List ℚ) (i : ℕ) (h : i + 1 < s.length) :
    (npDiff1 s).getD i 0 = s.getD (i + 1) 0 - s.getD i 0 := by
  rw [List.getD_eq_getElem?_getD, npDiff1_getElem?_lt s i h]
  rfl

theorem seasonalDiffOnce_getD {P : ℕ} (hP : 1 ≤ P) (s : List ℚ) (i : ℕ)
    (h : i + P < s.length) :
    (seasonalDiffOnce P s).getD i 0 = s.getD (P + i) 0 - s.getD i 0 := by
  rw [List.getD_eq_getElem?_getD, seasonalDiffOnce_getElem? hP s i h]
  rfl

/-- One step of simple differencing commutes with one seasonal pass. -/
theorem npDiff1_seasonalDiffOnce_comm {P : ℕ} (hP : 1 ≤ P) (s : List ℚ) :
    npDiff1 (seasonalDiffOnce P s) = seasonalDiffOnce P (npDiff1 s) := by
  apply List.ext_getElem?
  intro i
  by_cases h : i + 1 + P < s.length
  · rw [npDiff1_getElem?_lt _ i (by rw [seasonalDiffOnce_length hP]; omega)]
    rw [seasonalDiffOnce_getElem? hP (npDiff1 s) i (by rw [npDiff1_length]; omega)]
    rw [seasonalDiffOnce_getD hP s (i + 1) (by omega),
      seasonalDiffOnce_getD hP s i (by omega),
      npDiff1_getD_lt s (P + i) (by omega),
      npDiff1_getD_lt s i (by omega)]
    rw [show P + (i + 1) = P + i + 1 from by omega]
    congr 1
    ring
  · rw [List.getElem?_eq_none (by rw [npDiff1_length, seasonalDiffOnce_length hP]; omega),
      List.getElem?_eq_none (by rw [seasonalDiffOnce_length hP, npDiff1_length]; omega)]

theorem npDiff1_seasonalDiffIter_comm {P : ℕ} (hP : 1 ≤ P) :
    ∀ (k : ℕ) (s : List ℚ),
      npDiff1 (seasonalDiffIter k P s) = seasonalDiffIter k P (npDiff1 s) := by
  intro k
  induction k with
  | zero => intro s; rfl
  | succ k ih =>
    intro s
    show npDiff1 (seasonalDiffIter k P (seasonalDiffOnce P s))
        = seasonalDiffIter k P (seasonalDiffOnce P (npDiff1 s))
    rw [ih, npDiff1_seasonalDiffOnce_comm hP]

/-- Iterated simple differencing commutes with iterated seasonal
differencing, at every length (both orders truncate identically). -/
theorem npDiffK_seasonalDiffIter_comm {P : ℕ} (hP : 1 ≤ P) :
    ∀ (kd ks : ℕ) (s : List ℚ),
      npDiffK kd (seasonalDiffIter ks P s) = seasonalDiffIter ks P (npDiffK kd s) := by
  intro kd
  induction kd with
  | zero => intro ks s; rfl
  | succ kd ih =>
    intro ks s
    show npDiff1 (npDiffK kd (seasonalDiffIter ks P s))
        = seasonalDiffIter ks P (npDiff1 (npDiffK kd s))
    rw [ih, npDiff1_seasonalDiffIter_comm hP]

/-- C3 counterexample: the series `[1, 2, 3, 4]` is accepted by BOTH
orderings for `k_diff = 1, k_seasonal_diff = 1, seasonal_periods = 4`
(`4 ≥ max(1, 1)` and `1 + 1 ≤ 4`), yet seasonal-then-simple
(`difference_time_series`) raises an IndexError — the seasonal pass
shortens the series to nothing before the simple seed is extracted — while
simple-then-seasonal (`_difference_time_series_2`) returns the empty
series, so the two call sequences do not yield the same final difference
values on every accepted input. -/
theorem order_commutativity_fails_on_accepted_input :
    max 1 1 ≤ 4 ∧ 1 + 1 ≤ 4 ∧
    (difference_time_series ⟨1, 1, 4, [], [], []⟩ [1, 2, 3, 4]).2 = .error .IndexError ∧
    (difference_time_series_2 ⟨1, 1, 4, [], [], []⟩ [1, 2, 3, 4]).2 = .ok [] := by
  refine ⟨by norm_num, by norm_num, ?_, ?_⟩ <;>
    norm_num [difference_time_series, difference_time_series_2, difference_body,
      difference_time_series_seasonal, seasonalDiffOnce, npDiffK, npDiff1]

/-- C3 amended: whenever BOTH orderings actually return a value on the same
series (seasonal-then-simple can raise an IndexError on inputs both
orderings accept), the returned final difference values are equal: the two
forward operators commute, even though the two call sequences populate
`prepend_vector` and `final_difference_vector` differently. -/
theorem order_commutativity_of_successful_differencing
    (st : TimeSeriesDifferencing) (s v1 v2 : List ℚ)
    (h1 : (difference_time_series st s).2 = .ok v1)
    (h2 : (difference_time_series_2 st s).2 = .ok v2) :
    v1 = v2 := by
  unfold difference_time_series at h1
  by_cases hc1 : s.length < max st.k_diff st.k_seasonal_diff
  · rw [if_pos hc1] at h1
    simp at h1
  rw [if_neg hc1] at h1
  by_cases hc2 : 0 < st.k_seasonal_diff ∧ st.seasonal_periods < 1
  · rw [if_pos hc2] at h1
    simp at h1
  rw [if_neg hc2] at h1
  simp only [difference_body, difference_time_series_seasonal_eq] at h1
  by_cases hc3 : 1 ≤ st.k_diff ∧
      (seasonalDiffIter st.k_seasonal_diff st.seasonal_periods s).length < st.k_diff
  · rw [if_pos hc3] at h1
    simp at h1
  rw [if_neg hc3] at h1
  simp only [] at h1
  have hv1 : v1 = npDiffK st.k_diff
      (seasonalDiffIter st.k_seasonal_diff st.seasonal_periods s) :=
    (Except.ok.inj h1).symm
  unfold difference_time_series_2 at h2
  by_cases hd1 : s.length < st.k_diff + st.k_seasonal_diff
  · rw [if_pos hd1] at h2
    simp at h2
  rw [if_neg hd1] at h2
  by_cases hd2 : 0 < st.k_seasonal_diff ∧ st.seasonal_periods < 1
  · rw [if_pos hd2] at h2
    simp at h2
  rw [if_neg hd2] at h2
  simp only [difference_time_series_seasonal_eq] at h2
  have hv2 : v2 = seasonalDiffIter st.k_seasonal_diff st.seasonal_periods
      (npDiffK st.k_diff s) :=
    (Except.ok.inj h2).symm
  rw [hv1, hv2]
  rcases Nat.eq_zero_or_pos st.k_seasonal_diff with h0 | hpos
  · rw [h0]
    simp [seasonalDiffIter]
  · have hP : 1 ≤ st.seasonal_periods := by
      by_contra hcon
      exact hc2 ⟨hpos, by omega⟩
    exact npDiffK_seasonalDiffIter_comm hP st.k_diff st.k_seasonal_diff s

theorem order_commutativity_of_successful_differencing_witness :
    (difference_time_series ⟨1, 1, 2, [], [], []⟩ [1, 2, 3, 4, 5, 6]).2 = .ok [0, 0, 0] ∧
    (difference_time_series_2 ⟨1, 1, 2, [], [], []⟩ [1, 2, 3, 4, 5, 6]).2 = .ok [0, 0, 0] ∧
    ([0, 0, 0] : List ℚ) = [0, 0, 0] := by
  have ha : (difference_time_series ⟨1, 1, 2, [], [], []⟩ [1, 2, 3, 4, 5, 6]).2
      = .ok [0, 0, 0] := by
    norm_num [difference_time_series, difference_body, difference_time_series_seasonal,
      seasonalDiffOnce, npDiffK, npDiff1, List.range_succ]
  have hb : (difference_time_series_2 ⟨1, 1, 2, [], [], []⟩ [1, 2, 3, 4, 5, 6]).2
      = .ok [0, 0, 0] := by
    norm_num [difference_time_series_2, difference_time_series_seasonal,
      seasonalDiffOnce, npDiffK, npDiff1]
  exact ⟨ha, hb,
    order_commutativity_of_successful_differencing ⟨1, 1, 2, [], [], []⟩
      [1, 2, 3, 4, 5, 6] [0, 0, 0] [0, 0, 0] ha hb⟩
